import Mathlib

/-!
# Verification of the gravity-mirage lensing core

Shallow embedding of `src/gravity_mirage/core/physics.py`,
`src/gravity_mirage/core/lensing.py` and
`src/gravity_mirage/core/ray_tracer.py`.

Python floats are embedded as rationals (`ℚ`); the transcendental
floating-point operations (`np.sqrt`, `np.sin`, `np.cos`, `np.arctan2`)
have no exact rational counterpart, so they are passed explicitly as an
abstract operation record `FloatOps` and the theorems quantify over it:
every property proved here holds for arbitrary values of those
operations, hence in particular for the IEEE-754 ones.  The `np.inf`
"captured" sentinel returned by the weak-field deflection is embedded as
`⊤ : WithTop ℚ` (every finite angle is a coerced rational, and `⊤` is
ordered above all of them, exactly as `inf` compares in NumPy).
-/

namespace GravityMirage

/-- `self.G = 6.674e-11` — gravitational constant (physics.py line 17). -/
def G : ℚ := 6674 / 10 ^ 14

/-- `self.c = 299792458` — speed of light (physics.py line 18). -/
def c : ℚ := 299792458

/-- `self.M_sun = 1.989e30` — solar mass in kg (physics.py line 19). -/
def M_sun : ℚ := 1989 * 10 ^ 27

/-- The `SchwarzschildBlackHole` object: the fields computed by
`__init__` (physics.py lines 21–22).  `mass` is already in kg. -/
structure SchwarzschildBlackHole where
  mass : ℚ
  schwarzschild_radius : ℚ
  deriving Repr

/-- `SchwarzschildBlackHole.__init__` (physics.py lines 9–22):
`self.mass = mass * self.M_sun`,
`self.schwarzschild_radius = 2 * self.G * self.mass / (self.c**2)`.
The constructor performs no validation of `mass`: it is total. -/
def mkBlackHole (mass : ℚ) : SchwarzschildBlackHole :=
  { mass := mass * M_sun
    schwarzschild_radius := 2 * G * (mass * M_sun) / c ^ 2 }

/-- `SchwarzschildBlackHole.deflection_angle_weak_field`
(physics.py lines 24–39):
returns `np.inf` (embedded as `⊤`) when `impact_parameter <
schwarzschild_radius`, and `4 * G * mass / (c**2 * impact_parameter)`
otherwise. -/
def deflection_angle_weak_field (bh : SchwarzschildBlackHole)
    (impact_parameter : ℚ) : WithTop ℚ :=
  if impact_parameter < bh.schwarzschild_radius then ⊤
  else ((4 * G * bh.mass / (c ^ 2 * impact_parameter) : ℚ) : WithTop ℚ)

/-- The Schwarzschild radius is positive exactly when the mass is. -/
theorem schwarzschild_radius_pos {mass : ℚ} (hm : 0 < mass) :
    0 < (mkBlackHole mass).schwarzschild_radius := by
  have hG : (0:ℚ) < G := by norm_num [G]
  have hM : (0:ℚ) < M_sun := by norm_num [M_sun]
  have hc : (0:ℚ) < c ^ 2 := by norm_num [c]
  simp only [mkBlackHole]
  positivity

/-- The weak-field deflection at mass `10` and `b = rs` is finite. -/
theorem deflection_at_rs (mass : ℚ) (hm : 0 < mass) :
    deflection_angle_weak_field (mkBlackHole mass)
      (mkBlackHole mass).schwarzschild_radius
      = ((2 : ℚ) : WithTop ℚ) := by
  have hrs := schwarzschild_radius_pos hm
  rw [deflection_angle_weak_field, if_neg (lt_irrefl _)]
  have hG : (0:ℚ) < G := by norm_num [G]
  have hM : (0:ℚ) < mass * M_sun := by
    have : (0:ℚ) < M_sun := by norm_num [M_sun]
    positivity
  have hc : (0:ℚ) < c := by norm_num [c]
  norm_cast
  simp only [mkBlackHole]
  field_simp
  ring

/-- C1: For every mass m > 0 and every impact parameter b, the weak-field
deflection returns `4·G·M/(c²·b)` when `b ≥ schwarzschild_radius`, the
captured sentinel (`⊤`, embedding `np.inf`) when `b < schwarzschild_radius`,
and at `b = k·schwarzschild_radius` with `k ≥ 1` it equals exactly `2/k`
radians, independent of the mass. -/
theorem C1_weak_field_deflection (mass : ℚ) (hm : 0 < mass) :
    (∀ b : ℚ, (mkBlackHole mass).schwarzschild_radius ≤ b →
        deflection_angle_weak_field (mkBlackHole mass) b
          = ((4 * G * (mkBlackHole mass).mass / (c ^ 2 * b) : ℚ) : WithTop ℚ)) ∧
    (∀ b : ℚ, b < (mkBlackHole mass).schwarzschild_radius →
        deflection_angle_weak_field (mkBlackHole mass) b = ⊤) ∧
    (∀ k : ℚ, 1 ≤ k →
        deflection_angle_weak_field (mkBlackHole mass)
            (k * (mkBlackHole mass).schwarzschild_radius)
          = ((2 / k : ℚ) : WithTop ℚ)) := by
  have hrs := schwarzschild_radius_pos hm
  have hG : (0:ℚ) < G := by norm_num [G]
  have hM : (0:ℚ) < mass * M_sun := by
    have : (0:ℚ) < M_sun := by norm_num [M_sun]
    positivity
  have hc : (0:ℚ) < c := by norm_num [c]
  refine ⟨fun b hb => ?_, fun b hb => ?_, fun k hk => ?_⟩
  · rw [deflection_angle_weak_field, if_neg (not_lt.mpr hb)]
  · rw [deflection_angle_weak_field, if_pos hb]
  · have hk0 : (0:ℚ) < k := lt_of_lt_of_le one_pos hk
    have hge : (mkBlackHole mass).schwarzschild_radius
        ≤ k * (mkBlackHole mass).schwarzschild_radius :=
      le_mul_of_one_le_left hrs.le hk
    rw [deflection_angle_weak_field, if_neg (not_lt.mpr hge)]
    norm_cast
    simp only [mkBlackHole]
    field_simp
    ring

/-- Witness for C1 at mass 10 and `k = 100`: the deflection is exactly
`2/100 = 0.02` radians. -/
theorem C1_weak_field_deflection_witness :
    deflection_angle_weak_field (mkBlackHole 10)
        (100 * (mkBlackHole 10).schwarzschild_radius)
      = ((2 / 100 : ℚ) : WithTop ℚ) :=
  (C1_weak_field_deflection 10 (by norm_num)).2.2 100 (by norm_num)

/-- C4: For fixed mass > 0 and `b1 ≤ b2`, the weak-field deflection at `b1`
is ≥ the deflection at `b2` (the captured sentinel `⊤` sits above every
finite angle in `WithTop ℚ`), and strictly greater whenever
`schwarzschild_radius ≤ b1 < b2`. -/
theorem C4_weak_field_deflection_antitone (mass b1 b2 : ℚ)
    (hm : 0 < mass) (h12 : b1 ≤ b2) :
    deflection_angle_weak_field (mkBlackHole mass) b2
      ≤ deflection_angle_weak_field (mkBlackHole mass) b1 ∧
    ((mkBlackHole mass).schwarzschild_radius ≤ b1 → b1 < b2 →
      deflection_angle_weak_field (mkBlackHole mass) b2
        < deflection_angle_weak_field (mkBlackHole mass) b1) := by
  have hrs := schwarzschild_radius_pos hm
  have hG : (0:ℚ) < G := by norm_num [G]
  have hM : (0:ℚ) < mass * M_sun := by
    have : (0:ℚ) < M_sun := by norm_num [M_sun]
    positivity
  have hc : (0:ℚ) < c := by norm_num [c]
  have hmass : (0:ℚ) < (mkBlackHole mass).mass := by
    simpa [mkBlackHole] using hM
  have hnum : (0:ℚ) < 4 * G * (mkBlackHole mass).mass := by positivity
  constructor
  · by_cases h1 : b1 < (mkBlackHole mass).schwarzschild_radius
    · simp only [deflection_angle_weak_field]
      rw [if_pos h1]
      exact le_top
    · push_neg at h1
      have h2 : (mkBlackHole mass).schwarzschild_radius ≤ b2 := le_trans h1 h12
      have hb1 : (0:ℚ) < b1 := lt_of_lt_of_le hrs h1
      simp only [deflection_angle_weak_field]
      rw [if_neg (not_lt.mpr h1), if_neg (not_lt.mpr h2)]
      rw [WithTop.coe_le_coe]
      gcongr
  · intro h1 hlt
    have h2 : (mkBlackHole mass).schwarzschild_radius ≤ b2 :=
      le_trans h1 h12
    have hb1 : (0:ℚ) < b1 := lt_of_lt_of_le hrs h1
    simp only [deflection_angle_weak_field]
    rw [if_neg (not_lt.mpr h1), if_neg (not_lt.mpr h2)]
    rw [WithTop.coe_lt_coe]
    have hd1 : (0:ℚ) < c ^ 2 * b1 := by positivity
    have hlt' : c ^ 2 * b1 < c ^ 2 * b2 := by
      have : (0:ℚ) < c ^ 2 := by positivity
      exact (mul_lt_mul_left this).mpr hlt
    exact div_lt_div_of_pos_left hnum hd1 hlt'

/-- Witness for C4 at mass 10, `b1 = 0 ≤ b2 = 1`. -/
theorem C4_weak_field_deflection_antitone_witness :
    deflection_angle_weak_field (mkBlackHole 10) 1
      ≤ deflection_angle_weak_field (mkBlackHole 10) 0 :=
  (C4_weak_field_deflection_antitone 10 0 1 (by norm_num) (by norm_num)).1

/-- C10: for mass > 0 the weak-field deflection is total and its division
is guarded: the radius is strictly positive, `b = 0` takes the captured
branch, and on the finite branch (`b ≥ schwarzschild_radius`) the
denominator `c²·b` is nonzero. -/
theorem C10_weak_field_no_div_by_zero (mass : ℚ) (hm : 0 < mass) :
    0 < (mkBlackHole mass).schwarzschild_radius ∧
    deflection_angle_weak_field (mkBlackHole mass) 0 = ⊤ ∧
    (∀ b : ℚ, (mkBlackHole mass).schwarzschild_radius ≤ b →
      c ^ 2 * b ≠ 0) := by
  have hrs := schwarzschild_radius_pos hm
  refine ⟨hrs, ?_, fun b hb => ?_⟩
  · rw [deflection_angle_weak_field, if_pos hrs]
  · have hb0 : (0:ℚ) < b := lt_of_lt_of_le hrs hb
    have hc : (0:ℚ) < c := by norm_num [c]
    positivity

/-- Witness for C10 at mass 1. -/
theorem C10_weak_field_no_div_by_zero_witness :
    deflection_angle_weak_field (mkBlackHole 1) 0 = ⊤ :=
  (C10_weak_field_no_div_by_zero 1 (by norm_num)).2.1

/-- C6 counterexample: constructing the model with mass `-1` does NOT fail
with a validation error — `mkBlackHole` (like `SchwarzschildBlackHole.__init__`,
which performs no check on `mass`) silently derives a strictly negative
Schwarzschild radius. -/
theorem C6_counterexample_negative_mass_accepted :
    (mkBlackHole (-1)).schwarzschild_radius < 0 := by
  norm_num [mkBlackHole, G, M_sun, c]

/-- C6 (amended): the constructor is total and performs no validation;
for mass > 0 the derived radius `2·G·M/c²` is strictly positive, while for
mass ≤ 0 it is silently non-positive (no error is raised). -/
theorem C6_schwarzschild_radius_sign (mass : ℚ) :
    (0 < mass → 0 < (mkBlackHole mass).schwarzschild_radius) ∧
    (mass ≤ 0 → (mkBlackHole mass).schwarzschild_radius ≤ 0) := by
  constructor
  · exact fun hm => schwarzschild_radius_pos hm
  · intro hm
    have hG : (0:ℚ) < G := by norm_num [G]
    have hM : (0:ℚ) < M_sun := by norm_num [M_sun]
    have hc : (0:ℚ) < c ^ 2 := by norm_num [c]
    simp only [mkBlackHole]
    apply div_nonpos_of_nonpos_of_nonneg
    · have : mass * M_sun ≤ 0 := mul_nonpos_of_nonpos_of_nonneg hm hM.le
      nlinarith
    · positivity

/-- Witness for C6 (amended) at mass 10. -/
theorem C6_schwarzschild_radius_sign_witness :
    0 < (mkBlackHole 10).schwarzschild_radius :=
  (C6_schwarzschild_radius_sign 10).1 (by norm_num)

/-! ## Transcendental float operations

`np.sqrt`, `np.sin`, `np.cos` and `np.arctan2` have no exact rational
embedding; they are supplied as an abstract record and every theorem
quantifies over it. -/

/-- Abstract record of the floating-point transcendental operations used
by the pipeline. -/
structure FloatOps where
  sqrt : ℚ → ℚ
  sin : ℚ → ℚ
  cos : ℚ → ℚ
  atan2 : ℚ → ℚ → ℚ

/-- The 8-component photon state
`[t, r, θ, φ, dt/dλ, dr/dλ, dθ/dλ, dφ/dλ]` (physics.py line 54). -/
structure PhotonState where
  t : ℚ
  r : ℚ
  theta : ℚ
  phi : ℚ
  dt : ℚ
  dr : ℚ
  dtheta : ℚ
  dphi : ℚ
  deriving Repr, DecidableEq

/-- The all-zero state vector, `np.zeros_like(state)`. -/
def zeroPhotonState : PhotonState := ⟨0, 0, 0, 0, 0, 0, 0, 0⟩

/-- `SchwarzschildBlackHole.geodesic_equations` (physics.py lines 41–113):
the geodesic right-hand side.  When `r ≤ rs * 1.01` it returns
`np.zeros_like(state)`; otherwise the Christoffel-symbol expressions are
evaluated and the derivative vector is assembled.  In this rational
embedding every component is by construction a finite rational, so the
zero branch literally returns the all-zero vector, with no possibility of
`NaN`/`Inf`. -/
def geodesic_equations (ops : FloatOps) (bh : SchwarzschildBlackHole)
    (state : PhotonState) : PhotonState :=
  let rs := bh.schwarzschild_radius
  -- Evitar singularidad en r = rs
  if state.r ≤ rs * (101 / 100) then zeroPhotonState
  else
    let r := state.r
    let f := 1 - rs / r
    let g_t_tr := rs / (2 * r * (r - rs))
    let g_r_tt := rs * f / (2 * r ^ 2)
    let g_r_rr := -rs / (2 * r * (r - rs))
    let g_r_thth := -(r - rs)
    let g_r_phph := -(r - rs) * (ops.sin state.theta) ^ 2
    let g_th_rth := 1 / r
    let g_th_phph := -(ops.sin state.theta) * (ops.cos state.theta)
    let g_ph_rph := 1 / r
    let g_ph_thph := ops.cos state.theta / ops.sin state.theta
    let d2t_dl2 := -2 * g_t_tr * state.dt * state.dr
    let d2r_dl2 :=
      -g_r_tt * state.dt ^ 2 - g_r_rr * state.dr ^ 2
        - g_r_thth * state.dtheta ^ 2 - g_r_phph * state.dphi ^ 2
    let d2theta_dl2 :=
      -2 * g_th_rth * state.dr * state.dtheta - g_th_phph * state.dphi ^ 2
    let d2phi_dl2 :=
      -2 * g_ph_rph * state.dr * state.dphi
        - 2 * g_ph_thph * state.dtheta * state.dphi
    ⟨state.dt, state.dr, state.dtheta, state.dphi,
      d2t_dl2, d2r_dl2, d2theta_dl2, d2phi_dl2⟩

/-- C8: whenever the photon's radial coordinate satisfies
`r ≤ 1.01·schwarzschild_radius`, the geodesic RHS returns the all-zero
derivative vector (for every choice of the transcendental operations and
every black hole).  All components being the rational `0`, none is
`NaN`/`Inf`. -/
theorem C8_geodesic_rhs_zero_near_horizon (ops : FloatOps)
    (bh : SchwarzschildBlackHole) (state : PhotonState)
    (h : state.r ≤ bh.schwarzschild_radius * (101 / 100)) :
    geodesic_equations ops bh state = zeroPhotonState := by
  rw [geodesic_equations]
  exact if_pos h

/-- Witness for C8: a concrete state at `r = rs` for mass 10, with the
identity as stand-in transcendental operations. -/
theorem C8_geodesic_rhs_zero_near_horizon_witness :
    geodesic_equations ⟨id, id, id, fun y _ => y⟩ (mkBlackHole 10)
        ⟨0, (mkBlackHole 10).schwarzschild_radius, 0, 0, 1, -1, 0, 0⟩
      = zeroPhotonState :=
  C8_geodesic_rhs_zero_near_horizon _ _ _
    (by
      have h := schwarzschild_radius_pos (by norm_num : (0:ℚ) < 10)
      nlinarith)

/-! ## Image lensing mapper (`lensing.py`, `compute_lensed_array_from_src_arr`)

The NumPy whole-array program is embedded per pixel: a source image is a
function from (row, column) indices to an RGB triple, and each stage of
the pipeline becomes a named per-pixel definition used by the final
renderer.  Row index `i` corresponds to NumPy's `ys`, column `j` to `xs`. -/

/-- An RGB colour triple (`uint8` channels embedded as `ℕ`). -/
def Color := ℕ × ℕ × ℕ

instance : DecidableEq Color := instDecidableEqProd

/-- The IEEE-754 double value of `np.pi`. -/
def npPi : ℚ := 884279719003555 / 2 ^ 48

/-- `np.rint`: round to nearest integer, ties to even. -/
def rint (x : ℚ) : ℤ :=
  if Int.fract x < 1 / 2 then ⌊x⌋
  else if 1 / 2 < Int.fract x then ⌊x⌋ + 1
  else if ⌊x⌋ % 2 = 0 then ⌊x⌋ else ⌊x⌋ + 1

/-- `np.clip(np.rint(v), 0, hi)` followed by the integer cast used for
array indexing (lensing.py lines 76–77), as a natural-number index. -/
def srcIndex (hi : ℕ) (v : ℚ) : ℕ := (min (max (rint v) 0) (hi : ℤ)).toNat

/-- The clamped index never exceeds `hi` (and is a `ℕ`, hence `≥ 0`). -/
theorem srcIndex_le (hi : ℕ) (v : ℚ) : srcIndex hi v ≤ hi := by
  rw [srcIndex]
  omega


/-- Image-space radius of pixel `(i, j)`:
`r = np.sqrt(dx**2 + dy**2)` with `dx = x - cx`, `dy = y - cy`,
`cx = out_w/2`, `cy = out_h/2` (lensing.py lines 27–32). -/
def rPix (ops : FloatOps) (out_h out_w : ℕ) (i j : ℕ) : ℚ :=
  ops.sqrt (((j : ℚ) - (out_w : ℚ) / 2) ^ 2 + ((i : ℚ) - (out_h : ℚ) / 2) ^ 2)

/-- `max_r = max(np.max(r), 1.0)` (lensing.py line 33): the fold of `max`
over every pixel radius, floored at `1`. -/
def maxPixelRadius (ops : FloatOps) (out_h out_w : ℕ) : ℚ :=
  (((List.range out_h).map (fun i =>
      (List.range out_w).map (fun j => rPix ops out_h out_w i j))).flatten).foldr
    max 1

/-- `meters_per_pixel = (scale_rs * rs) / max_r` (lensing.py line 36). -/
def metersPerPixel (ops : FloatOps) (out_h out_w : ℕ)
    (mass scale_rs : ℚ) : ℚ :=
  scale_rs * (mkBlackHole mass).schwarzschild_radius
    / maxPixelRadius ops out_h out_w

/-- `rs_pixels = rs / meters_per_pixel` (lensing.py line 84). -/
def rsPixels (ops : FloatOps) (out_h out_w : ℕ) (mass scale_rs : ℚ) : ℚ :=
  (mkBlackHole mass).schwarzschild_radius
    / metersPerPixel ops out_h out_w mass scale_rs

/-- The geometric remapping stage (lensing.py lines 72–77) for an
arbitrary finite per-pixel deflection field `alphaF`:
`theta = arctan2(dy, dx)`, `theta_src = theta + alpha`,
`src_x = cx + r·cos(theta_src)`, `src_y = cy + r·sin(theta_src)`,
each rounded with `np.rint` and clamped into
`[0, out_w-1] × [0, out_h-1]`.  Returns `(src_xi, src_yi)`. -/
def lensedIndices (ops : FloatOps) (out_h out_w : ℕ)
    (alphaF : ℕ → ℕ → ℚ) (i j : ℕ) : ℕ × ℕ :=
  let cx : ℚ := (out_w : ℚ) / 2
  let cy : ℚ := (out_h : ℚ) / 2
  let dx : ℚ := (j : ℚ) - cx
  let dy : ℚ := (i : ℚ) - cy
  let r := rPix ops out_h out_w i j
  let theta := ops.atan2 dy dx
  let theta_src := theta + alphaF i j
  let src_x := cx + r * ops.cos theta_src
  let src_y := cy + r * ops.sin theta_src
  (srcIndex (out_w - 1) src_x, srcIndex (out_h - 1) src_y)

/-! ### Radial deflection-profile builder (geodesic branch) -/

/-- The exception kinds caught by the per-bin `try/except`
(lensing.py line 66): `except (ValueError, RuntimeError)`. -/
inductive TraceErr where
  | valueError
  | runtimeError
  deriving Repr, DecidableEq

/-- The solver result object (`scipy.integrate.OdeResult` as used by the
repository): time samples `t`, state columns `y` (the `8×N` matrix as a
list of `N` photon states), the escape-event times `t_events` and the
dense interpolant `sol`. -/
structure OdeSolution where
  t : List ℚ
  y : List PhotonState
  t_events : List ℚ
  sol : ℚ → PhotonState

/-- A call to `GravitationalRayTracer.trace_photon_geodesic`, abstracted
as a function from `(initial_pos_spherical, initial_velocity, lambda_max)`
to either a solution or one of the exceptions the caller catches. -/
def TraceCall : Type :=
  (ℚ × ℚ × ℚ) → (ℚ × ℚ × ℚ) → ℚ → Except TraceErr OdeSolution

/-- One iteration of the profile-builder loop (lensing.py lines 49–67):
build the initial conditions for bin radius `rb`, call the tracer, read
`phi_final = y[3, -1]` and set the bin angle to `abs(phi_final) - np.pi`;
on an empty trajectory, or on a caught exception, fall back to `0`. -/
def geodesicBinAngle (tracer : TraceCall) (r0 mpp lmax rb : ℚ) : ℚ :=
  let b_phys := rb * mpp
  match tracer (r0, npPi / 2, 0) (-1, 0, b_phys / (r0 ^ 2 + 1 / 10 ^ 30))
      lmax with
  | .error _ => 0
  | .ok sol =>
    match sol.y.getLast? with
    | some st => |st.phi| - npPi
    | none => 0

/-- The full profile table `alpha_bins` over the bin radii `radii`. -/
def alpha_bins (tracer : TraceCall) (radii : List ℚ)
    (mpp r0 lmax : ℚ) : List ℚ :=
  radii.map (geodesicBinAngle tracer r0 mpp lmax)

/-- `np.linspace a b n`: `n` evenly spaced points from `a` to `b`
inclusive. -/
def linspace (a b : ℚ) (n : ℕ) : List ℚ :=
  if n ≤ 1 then List.replicate n a
  else (List.range n).map fun i => a + (b - a) * i / ((n : ℚ) - 1)

/-- `np.interp x xp fp`: piecewise-linear interpolation over the
increasing abscissae `xp`, clamped to the end values outside the range. -/
def interp (x : ℚ) : List ℚ → List ℚ → ℚ
  | x0 :: x1 :: xs, f0 :: f1 :: fs =>
    if x ≤ x0 then f0
    else if x ≤ x1 then f0 + (f1 - f0) * (x - x0) / (x1 - x0)
    else interp x (x1 :: xs) (f1 :: fs)
  | [_], f0 :: _ => f0
  | _, _ => 0

/-- The per-pixel deflection field of the weak-field branch
(lensing.py lines 39–41): the scalar law applied elementwise to
`b = r * meters_per_pixel`. -/
def weakAlphaPix (ops : FloatOps) (out_h out_w : ℕ)
    (mass scale_rs : ℚ) (i j : ℕ) : WithTop ℚ :=
  deflection_angle_weak_field (mkBlackHole mass)
    (rPix ops out_h out_w i j * metersPerPixel ops out_h out_w mass scale_rs)

/-- The per-pixel deflection field of the geodesic branch
(lensing.py lines 43–69): `bins = min(128, max(8, int(max_r)))`, bin radii
`np.linspace(0, max_r, bins)`, reference radius
`r0 = max(1e4*rs, 1e6)`, `lambda_max = max(1e3, 2*r0)`, the per-bin
profile of `alpha_bins`, linearly interpolated at each pixel radius.
(`int(max_r)` truncates toward zero; `max_r ≥ 1`, so it is the floor.) -/
def geoAlphaPix (ops : FloatOps) (tracer : TraceCall) (out_h out_w : ℕ)
    (mass scale_rs : ℚ) (i j : ℕ) : ℚ :=
  let max_r := maxPixelRadius ops out_h out_w
  let rs := (mkBlackHole mass).schwarzschild_radius
  let bins := min 128 (max 8 (⌊max_r⌋.toNat))
  let radii := linspace 0 max_r bins
  let r0 := max (10 ^ 4 * rs) (10 ^ 6)
  interp (rPix ops out_h out_w i j) radii
    (alpha_bins tracer radii (metersPerPixel ops out_h out_w mass scale_rs)
      r0 (max (10 ^ 3) (2 * r0)))

/-- The per-pixel deflection field selected by `method`
(lensing.py lines 39–69): `if method == "weak"` use the closed-form law,
`else` (any other string — there is no validation) the interpolated
geodesic profile, whose values are always finite rationals. -/
def alphaPix (ops : FloatOps) (tracer : TraceCall) (out_h out_w : ℕ)
    (mass scale_rs : ℚ) (method : String) (i j : ℕ) : WithTop ℚ :=
  if method = "weak" then weakAlphaPix ops out_h out_w mass scale_rs i j
  else ((geoAlphaPix ops tracer out_h out_w mass scale_rs i j : ℚ) : WithTop ℚ)

/-- `compute_lensed_array_from_src_arr` (lensing.py lines 12–88), per
output pixel.  A pixel is masked black (`result[mask_disk] = 0`) when
`r <= rs_pixels` or its deflection is non-finite
(`captured = ~np.isfinite(alpha)`, i.e. `alpha = ⊤` here); otherwise the
source is nearest-neighbour-sampled at the clamped remapped indices
(`result[...] = src_arr[src_yi, src_xi, ...]`).  Captured pixels are
overwritten by the mask, so the finite value fed to the remapping stage
for them (`getD 0` below) never reaches the output. -/
def compute_lensed_array_from_src_arr (ops : FloatOps) (tracer : TraceCall)
    (src_arr : ℕ → ℕ → Color) (out_h out_w : ℕ)
    (mass scale_rs : ℚ) (method : String) : ℕ → ℕ → Color :=
  fun i j =>
    let alpha := alphaPix ops tracer out_h out_w mass scale_rs method
    if rPix ops out_h out_w i j ≤ rsPixels ops out_h out_w mass scale_rs
        ∨ alpha i j = ⊤ then
      (0, 0, 0)
    else
      let idx := lensedIndices ops out_h out_w
        (fun i' j' => (alpha i' j').getD 0) i j
      src_arr idx.2 idx.1

/-- Folding `max` with initial value `1` never drops below `1`. -/
theorem one_le_foldr_max (l : List ℚ) : 1 ≤ l.foldr max 1 := by
  induction l with
  | nil => exact le_refl 1
  | cons a l ih => exact le_trans ih (le_max_right a _)

/-- `max_r = max(np.max(r), 1.0)` is at least `1`. -/
theorem one_le_maxPixelRadius (ops : FloatOps) (out_h out_w : ℕ) :
    1 ≤ maxPixelRadius ops out_h out_w :=
  one_le_foldr_max _

/-- For positive mass and scale, `meters_per_pixel` is positive. -/
theorem metersPerPixel_pos (ops : FloatOps) (out_h out_w : ℕ)
    {mass scale_rs : ℚ} (hm : 0 < mass) (hs : 0 < scale_rs) :
    0 < metersPerPixel ops out_h out_w mass scale_rs := by
  have hrs := schwarzschild_radius_pos hm
  have hmax : (0:ℚ) < maxPixelRadius ops out_h out_w :=
    lt_of_lt_of_le one_pos (one_le_maxPixelRadius ops out_h out_w)
  rw [metersPerPixel]
  positivity

/-- In the weak-field branch a pixel's deflection is the captured
sentinel exactly when its image-space radius lies strictly inside the
event-horizon disk in pixel units. -/
theorem weakAlphaPix_eq_top_iff (ops : FloatOps) (out_h out_w : ℕ)
    {mass scale_rs : ℚ} (hm : 0 < mass) (hs : 0 < scale_rs) (i j : ℕ) :
    weakAlphaPix ops out_h out_w mass scale_rs i j = ⊤
      ↔ rPix ops out_h out_w i j < rsPixels ops out_h out_w mass scale_rs := by
  have hmpp := metersPerPixel_pos ops out_h out_w hm hs
  by_cases hb : rPix ops out_h out_w i j
      * metersPerPixel ops out_h out_w mass scale_rs
      < (mkBlackHole mass).schwarzschild_radius
  · rw [weakAlphaPix, deflection_angle_weak_field, if_pos hb]
    simp only [true_iff]
    rw [rsPixels]
    exact (lt_div_iff₀ hmpp).mpr hb
  · rw [weakAlphaPix, deflection_angle_weak_field, if_neg hb]
    constructor
    · intro h
      exact absurd h (by simp)
    · intro h
      exact absurd ((lt_div_iff₀ hmpp).mp (by rwa [rsPixels] at h)) hb

/-- C2: rendering a spatially uniform source with the weak-field method
yields, at every pixel, exactly black `(0,0,0)` inside the masked disk of
radius `schwarzschild_radius / meters_per_pixel` (pixels marked captured
lie inside that disk), and exactly the source's constant colour outside
it.  Holds for every choice of the transcendental operations and every
tracer (the tracer is unused on the weak branch). -/
theorem C2_weak_uniform_render (ops : FloatOps) (tracer : TraceCall)
    (src_arr : ℕ → ℕ → Color) (col : Color) (out_h out_w : ℕ)
    (mass scale_rs : ℚ) (hm : 0 < mass) (hs : 0 < scale_rs)
    (hu : ∀ y x, src_arr y x = col) (i j : ℕ) :
    (rPix ops out_h out_w i j ≤ rsPixels ops out_h out_w mass scale_rs →
      compute_lensed_array_from_src_arr ops tracer src_arr out_h out_w
        mass scale_rs "weak" i j = (0, 0, 0)) ∧
    (rsPixels ops out_h out_w mass scale_rs < rPix ops out_h out_w i j →
      compute_lensed_array_from_src_arr ops tracer src_arr out_h out_w
        mass scale_rs "weak" i j = col) := by
  constructor
  · intro hin
    rw [compute_lensed_array_from_src_arr]
    exact if_pos (Or.inl hin)
  · intro hout
    have halpha : alphaPix ops tracer out_h out_w mass scale_rs "weak" i j
        ≠ ⊤ := by
      rw [alphaPix, if_pos rfl]
      rw [Ne, weakAlphaPix_eq_top_iff ops out_h out_w hm hs i j]
      exact not_lt.mpr hout.le
    rw [compute_lensed_array_from_src_arr]
    rw [if_neg (by push_neg; exact ⟨hout, halpha⟩)]
    exact hu _ _

/-- Witness for C2: a concrete 1×1 uniform image, mass 10, scale 100,
with the all-zero stand-in transcendental operations; the single pixel
has `r = 0 ≤ rs_pixels` and renders black. -/
theorem C2_weak_uniform_render_witness :
    compute_lensed_array_from_src_arr ⟨fun _ => 0, fun _ => 0, fun _ => 0,
        fun _ _ => 0⟩ (fun _ _ _ => .error .runtimeError)
      (fun _ _ => (5, 6, 7)) 1 1 10 100 "weak" 0 0 = (0, 0, 0) :=
  (C2_weak_uniform_render ⟨fun _ => 0, fun _ => 0, fun _ => 0, fun _ _ => 0⟩
      (fun _ _ _ => .error .runtimeError) (fun _ _ => (5, 6, 7)) (5, 6, 7)
      1 1 10 100 (by norm_num) (by norm_num) (fun _ _ => rfl) 0 0).1
    (by
      have h := metersPerPixel_pos
        ⟨fun _ => 0, fun _ => 0, fun _ => 0, fun _ _ => 0⟩ 1 1
        (by norm_num : (0:ℚ) < 10) (by norm_num : (0:ℚ) < 100)
      have hrs := schwarzschild_radius_pos (by norm_num : (0:ℚ) < 10)
      have h0 : rPix ⟨fun _ => 0, fun _ => 0, fun _ => 0, fun _ _ => 0⟩
          1 1 0 0 = 0 := rfl
      rw [h0, rsPixels]
      positivity)

/-- C3: for every grid size, every choice of the transcendental
operations and every per-pixel deflection field of arbitrary finite
values, the clamped source-sample indices computed by the remapping stage
lie within `[0, out_w-1] × [0, out_h-1]`, so the resampling never reads
the source array out of bounds. -/
theorem C3_lensed_indices_in_bounds (ops : FloatOps) (out_h out_w : ℕ)
    (hh : 0 < out_h) (hw : 0 < out_w) (alphaF : ℕ → ℕ → ℚ) (i j : ℕ) :
    (lensedIndices ops out_h out_w alphaF i j).1 ≤ out_w - 1 ∧
    (lensedIndices ops out_h out_w alphaF i j).2 ≤ out_h - 1 ∧
    (lensedIndices ops out_h out_w alphaF i j).1 < out_w ∧
    (lensedIndices ops out_h out_w alphaF i j).2 < out_h := by
  refine ⟨srcIndex_le _ _, srcIndex_le _ _, ?_, ?_⟩
  · exact lt_of_le_of_lt (srcIndex_le _ _) (by omega)
  · exact lt_of_le_of_lt (srcIndex_le _ _) (by omega)

/-- Witness for C3 on a 2×3 grid with an extreme deflection field. -/
theorem C3_lensed_indices_in_bounds_witness :
    (lensedIndices ⟨fun x => x, fun x => x, fun x => x, fun y _ => y⟩ 2 3
        (fun _ _ => 10 ^ 20) 1 2).1 ≤ 2 ∧
    (lensedIndices ⟨fun x => x, fun x => x, fun x => x, fun y _ => y⟩ 2 3
        (fun _ _ => 10 ^ 20) 1 2).2 ≤ 1 ∧
    (lensedIndices ⟨fun x => x, fun x => x, fun x => x, fun y _ => y⟩ 2 3
        (fun _ _ => 10 ^ 20) 1 2).1 < 3 ∧
    (lensedIndices ⟨fun x => x, fun x => x, fun x => x, fun y _ => y⟩ 2 3
        (fun _ _ => 10 ^ 20) 1 2).2 < 2 :=
  C3_lensed_indices_in_bounds _ 2 3 (by norm_num) (by norm_num) _ 1 2

/-- The profile table has one entry per bin radius. -/
theorem alpha_bins_length (tracer : TraceCall) (radii : List ℚ)
    (mpp r0 lmax : ℚ) :
    (alpha_bins tracer radii mpp r0 lmax).length = radii.length :=
  List.length_map _ _

/-- C7: during radial-profile building, a bin whose geodesic trace raises
one of the caught exceptions gets deflection angle exactly `0`, and the
profile is still built in full (one entry per bin — the builder is a
total function, so the overall render completes; the failure never
propagates). -/
theorem C7_failed_bin_zero_fallback (tracer : TraceCall) (radii : List ℚ)
    (mpp r0 lmax : ℚ) (i : ℕ) (hi : i < radii.length) (err : TraceErr)
    (hfail : tracer (r0, npPi / 2, 0)
        (-1, 0, radii.get ⟨i, hi⟩ * mpp / (r0 ^ 2 + 1 / 10 ^ 30)) lmax
      = .error err) :
    (alpha_bins tracer radii mpp r0 lmax).get
        ⟨i, by rw [alpha_bins_length]; exact hi⟩ = 0 ∧
    (alpha_bins tracer radii mpp r0 lmax).length = radii.length := by
  refine ⟨?_, alpha_bins_length tracer radii mpp r0 lmax⟩
  have : (alpha_bins tracer radii mpp r0 lmax).get
      ⟨i, by rw [alpha_bins_length]; exact hi⟩
      = geodesicBinAngle tracer r0 mpp lmax (radii.get ⟨i, hi⟩) := by
    simp [alpha_bins]
  rw [this, geodesicBinAngle]
  simp only [hfail]

/-- Witness for C7: an always-failing tracer over two bins. -/
theorem C7_failed_bin_zero_fallback_witness :
    (alpha_bins (fun _ _ _ => .error .runtimeError) [0, 1] 1 1 1).get
        ⟨0, by rw [alpha_bins_length]; norm_num⟩ = 0 ∧
    (alpha_bins (fun _ _ _ => .error .runtimeError) [0, 1] 1 1 1).length
      = [0, 1].length :=
  C7_failed_bin_zero_fallback (fun _ _ _ => .error .runtimeError) [0, 1]
    1 1 1 0 (by norm_num) .runtimeError rfl

/-- C5 counterexample: at the concrete unrecognized method string
`"bogus"`, the render entry point does NOT fail — the method dispatch of
`compute_lensed_array_from_src_arr` (lensing.py line 39: `if method ==
"weak": ... else: ...`) sends every non-`"weak"` string to the geodesic
branch, and an output pixel is produced (here the masked black pixel of a
1×1 image at mass 10, scale 100).  No validation of `method` exists in
`compute_lensed_array_from_src_arr` or `render_lensing_image`; the
`ALLOWED_METHODS` check lives only in the web router. -/
theorem C5_counterexample_unknown_method_renders :
    alphaPix ⟨fun _ => 0, fun _ => 0, fun _ => 0, fun _ _ => 0⟩
        (fun _ _ _ => .error .runtimeError) 1 1 10 100 "bogus" 0 0
      = ((geoAlphaPix ⟨fun _ => 0, fun _ => 0, fun _ => 0, fun _ _ => 0⟩
          (fun _ _ _ => .error .runtimeError) 1 1 10 100 0 0 : ℚ)
          : WithTop ℚ) ∧
    compute_lensed_array_from_src_arr
        ⟨fun _ => 0, fun _ => 0, fun _ => 0, fun _ _ => 0⟩
        (fun _ _ _ => .error .runtimeError)
        (fun _ _ => (5, 6, 7)) 1 1 10 100 "bogus" 0 0 = (0, 0, 0) := by
  constructor
  · rw [alphaPix, if_neg (by decide)]
  · rw [compute_lensed_array_from_src_arr]
    rw [if_pos]
    left
    show rPix _ 1 1 0 0 ≤ rsPixels _ 1 1 10 100
    have h1 : rPix ⟨fun _ => 0, fun _ => 0, fun _ => 0, fun _ _ => 0⟩
        1 1 0 0 = 0 := rfl
    rw [h1, rsPixels]
    have hmpp := metersPerPixel_pos
      ⟨fun _ => 0, fun _ => 0, fun _ => 0, fun _ _ => 0⟩ 1 1
      (by norm_num : (0:ℚ) < 10) (by norm_num : (0:ℚ) < 100)
    have hrs := schwarzschild_radius_pos (by norm_num : (0:ℚ) < 10)
    positivity

/-- C5 (amended): the render entry point performs no method validation;
every method string other than `"weak"` is processed exactly as the
geodesic method and an output image is produced (the `ALLOWED_METHODS`
check exists only in the web-router layer, not in the render functions). -/
theorem C5_amended_unknown_method_is_geodesic (ops : FloatOps)
    (tracer : TraceCall) (src_arr : ℕ → ℕ → Color) (out_h out_w : ℕ)
    (mass scale_rs : ℚ) (method : String) (hne : method ≠ "weak")
    (i j : ℕ) :
    compute_lensed_array_from_src_arr ops tracer src_arr out_h out_w
        mass scale_rs method i j
      = compute_lensed_array_from_src_arr ops tracer src_arr out_h out_w
        mass scale_rs "geodesic" i j := by
  have halpha : alphaPix ops tracer out_h out_w mass scale_rs method
      = alphaPix ops tracer out_h out_w mass scale_rs "geodesic" := by
    funext i' j'
    rw [alphaPix, if_neg hne, alphaPix, if_neg (by decide)]
  rw [compute_lensed_array_from_src_arr, compute_lensed_array_from_src_arr]
  simp only [halpha]

/-- Witness for C5 (amended) at the concrete method `"bogus"`. -/
theorem C5_amended_unknown_method_is_geodesic_witness :
    compute_lensed_array_from_src_arr
        ⟨fun _ => 0, fun _ => 0, fun _ => 0, fun _ _ => 0⟩
        (fun _ _ _ => .error .runtimeError)
        (fun _ _ => (5, 6, 7)) 1 1 10 100 "bogus" 0 0
      = compute_lensed_array_from_src_arr
        ⟨fun _ => 0, fun _ => 0, fun _ => 0, fun _ _ => 0⟩
        (fun _ _ _ => .error .runtimeError)
        (fun _ _ => (5, 6, 7)) 1 1 10 100 "geodesic" 0 0 :=
  C5_amended_unknown_method_is_geodesic _ _ _ 1 1 10 100 "bogus"
    (by decide) 0 0

/-! ## Geodesic integrator (`ray_tracer.py`, `trace_photon_geodesic`)

`scipy.integrate.solve_ivp` is an external library; it is abstracted as a
`Solver` function, and its documented event semantics (an event with
`direction = 1` fires only where the event function crosses zero from
negative to positive, at a root of the event function along the dense
solution, which extends the initial condition) is a `SolverRespects`
hypothesis.  What the repository's code contributes — the event function,
its `terminal`/`direction` configuration, and the post-processing that
appends the dense-interpolant state at the event time — is embedded
directly. -/

/-- A solver event specification, mirroring the attributes set on
`escape_event` (ray_tracer.py lines 114–120). -/
structure EventConfig where
  fn : PhotonState → ℚ
  terminal : Bool
  direction : ℤ

/-- The escape event of `trace_photon_geodesic` (ray_tracer.py lines
112–120): zero of `s[1] - threshold` with `threshold = r0 * 0.999`,
terminal, firing only in the increasing direction (`direction = 1`). -/
def escapeEvent (r0 : ℚ) : EventConfig :=
  { fn := fun s => s.r - r0 * (999 / 1000)
    terminal := true
    direction := 1 }

/-- The initial 8-component state built by `trace_photon_geodesic`
(ray_tracer.py lines 89–100): `dt/dλ` is derived from the null-geodesic
condition, the rest is the caller's position and velocity at `t = 0`. -/
def initialPhotonState (ops : FloatOps) (bh : SchwarzschildBlackHole)
    (pos vel : ℚ × ℚ × ℚ) : PhotonState :=
  let r0 := pos.1
  let theta0 := pos.2.1
  let phi0 := pos.2.2
  let dr0 := vel.1
  let dtheta0 := vel.2.1
  let dphi0 := vel.2.2
  let rs := bh.schwarzschild_radius
  let f := 1 - rs / r0
  let dt0 := ops.sqrt
    ((dr0 ^ 2 / f + r0 ^ 2 * (dtheta0 ^ 2 + (ops.sin theta0) ^ 2 * dphi0 ^ 2))
      / f)
  ⟨0, r0, theta0, phi0, dt0, dr0, dtheta0, dphi0⟩

/-- An abstract `solve_ivp`: takes the span endpoints, the initial state
and the event specification, returns an `OdeResult`. -/
def Solver : Type :=
  ℚ → ℚ → PhotonState → EventConfig → OdeSolution

/-- The raw solver output of `trace_photon_geodesic` before its
post-processing (ray_tracer.py lines 122–130). -/
def rawSolution (solver : Solver) (ops : FloatOps)
    (bh : SchwarzschildBlackHole) (pos vel : ℚ × ℚ × ℚ) (lmax : ℚ) :
    OdeSolution :=
  solver 0 lmax (initialPhotonState ops bh pos vel) (escapeEvent pos.1)

/-- `GravitationalRayTracer.trace_photon_geodesic`
(ray_tracer.py lines 70–144): run the solver with the escape event; if
the event fired (`t_events` nonempty), append the event time and the
dense-interpolant state at that time to the returned trajectory
(`np.append` / `np.hstack`, lines 135–142); otherwise return the raw
solution unchanged. -/
def trace_photon_geodesic (solver : Solver) (ops : FloatOps)
    (bh : SchwarzschildBlackHole) (pos vel : ℚ × ℚ × ℚ) (lmax : ℚ) :
    OdeSolution :=
  let solution := rawSolution solver ops bh pos vel lmax
  match solution.t_events.head? with
  | some t_event =>
    { solution with
        t := solution.t ++ [t_event]
        y := solution.y ++ [solution.sol t_event] }
  | none => solution

/-- The documented `solve_ivp` contract for the configuration used here:
the dense solution extends the initial condition, fired events are roots
of the event function along the dense solution, and with `direction = 1`
each fired event is a strictly increasing zero crossing. -/
def SolverRespects (lam0 : ℚ) (state0 : PhotonState) (ev : EventConfig)
    (sol : OdeSolution) : Prop :=
  sol.sol lam0 = state0 ∧
  (∀ τ ∈ sol.t_events, ev.fn (sol.sol τ) = 0) ∧
  (ev.direction = 1 → ∀ τ ∈ sol.t_events, ∃ δ > 0, ∀ ε : ℚ,
      0 < ε → ε < δ →
      ev.fn (sol.sol (τ - ε)) < 0 ∧ 0 < ev.fn (sol.sol (τ + ε)))

/-- The conclusion of claim C9 about `trace_photon_geodesic`: the escape
event never fires at `λ = 0`, every fired event is an increasing-radius
crossing of the threshold `0.999·r0`, and the post-processing appends
exactly the dense-interpolant state at the first event time when the
event fired — returning the raw trajectory unchanged otherwise. -/
def TraceEventSpec (solver : Solver) (ops : FloatOps)
    (bh : SchwarzschildBlackHole) (pos vel : ℚ × ℚ × ℚ) (lmax : ℚ) :
    Prop :=
  (0 ∉ (rawSolution solver ops bh pos vel lmax).t_events) ∧
  (∀ τ ∈ (rawSolution solver ops bh pos vel lmax).t_events,
      ((rawSolution solver ops bh pos vel lmax).sol τ).r
        = pos.1 * (999 / 1000) ∧
      ∃ δ > 0, ∀ ε : ℚ, 0 < ε → ε < δ →
        ((rawSolution solver ops bh pos vel lmax).sol (τ - ε)).r
          < pos.1 * (999 / 1000) ∧
        pos.1 * (999 / 1000)
          < ((rawSolution solver ops bh pos vel lmax).sol (τ + ε)).r) ∧
  (∀ t_event,
      (rawSolution solver ops bh pos vel lmax).t_events.head? = some t_event →
      (trace_photon_geodesic solver ops bh pos vel lmax).t
          = (rawSolution solver ops bh pos vel lmax).t ++ [t_event] ∧
      (trace_photon_geodesic solver ops bh pos vel lmax).y
          = (rawSolution solver ops bh pos vel lmax).y
            ++ [(rawSolution solver ops bh pos vel lmax).sol t_event]) ∧
  ((rawSolution solver ops bh pos vel lmax).t_events = [] →
      trace_photon_geodesic solver ops bh pos vel lmax
        = rawSolution solver ops bh pos vel lmax)

/-- C9: for a trace started at radius `r0 > 0` with inward radial
velocity, under the solver's documented event semantics the escape event
fires only on an increasing-radius crossing of `0.999·r0` (in particular
never at `λ = 0`), when it fires the returned trajectory's final samples
are extended with the dense-interpolant state at the event time, and when
it never fires the raw truncated trajectory is returned unchanged. -/
theorem C9_trace_escape_event (solver : Solver) (ops : FloatOps)
    (bh : SchwarzschildBlackHole) (pos vel : ℚ × ℚ × ℚ) (lmax : ℚ)
    (hr0 : 0 < pos.1) (_hin : vel.1 < 0)
    (hresp : SolverRespects 0 (initialPhotonState ops bh pos vel)
      (escapeEvent pos.1) (rawSolution solver ops bh pos vel lmax)) :
    TraceEventSpec solver ops bh pos vel lmax := by
  obtain ⟨hinit, hroot, hdir⟩ := hresp
  refine ⟨?_, ?_, ?_, ?_⟩
  · intro h0
    have := hroot 0 h0
    rw [hinit] at this
    have hr : (initialPhotonState ops bh pos vel).r = pos.1 := rfl
    simp only [escapeEvent] at this
    rw [hr] at this
    nlinarith
  · intro τ hτ
    have h1 := hroot τ hτ
    simp only [escapeEvent] at h1
    refine ⟨by linarith, ?_⟩
    obtain ⟨δ, hδ, hcross⟩ := hdir rfl τ hτ
    refine ⟨δ, hδ, fun ε hε1 hε2 => ?_⟩
    obtain ⟨hlt, hgt⟩ := hcross ε hε1 hε2
    simp only [escapeEvent] at hlt hgt
    exact ⟨by linarith, by linarith⟩
  · intro t_event hev
    rw [trace_photon_geodesic]
    rw [hev]
    exact ⟨rfl, rfl⟩
  · intro hempty
    rw [trace_photon_geodesic, hempty]
    rfl

/-- Witness for C9: a trivial solver whose dense solution is constantly
the initial state and which reports no events, at `r0 = 1`, inward
velocity `-1`. -/
theorem C9_trace_escape_event_witness :
    TraceEventSpec (fun _ _ s _ => ⟨[0], [s], [], fun _ => s⟩)
      ⟨fun _ => 0, fun _ => 0, fun _ => 0, fun _ _ => 0⟩
      (mkBlackHole 10) (1, 0, 0) (-1, 0, 0) 5 :=
  C9_trace_escape_event _ _ _ _ _ _ (by norm_num) (by norm_num)
    ⟨rfl, by simp [rawSolution], by intro _ τ hτ; simp [rawSolution] at hτ⟩

end GravityMirage
